import Mathlib

/-!
Verification of the Callivate offline-sync engine specification.

Shallow embedding of the sync subsystem:
- `backend/app/services/advanced_sync_service.py` (conflict detection,
  conflict resolution, consolidation, batch scheduling, status bookkeeping)
- `backend/app/api/api_v1/endpoints/sync.py` (sync HTTP endpoints)
- `backend/app/models/sync.py` (public interface models)

Conventions of the embedding:
- Timestamps (ISO-8601 strings parsed with `datetime.fromisoformat`) are
  modelled as `Int` instants; `Value.t n` stands for a string that parses
  to instant `n`, every other `Value` fails to parse as a timestamp.
- Python dicts are modelled as association lists (`Row`) whose key lists
  are duplicate-free when they originate from a real dict; `Row.get` reads
  the first binding and `Row.set` replaces the first binding (or appends).
- Supabase reads/writes that may raise are modelled with `Except String`;
  a caught exception corresponds to the `Except.error` branch.
-/

/-- Value kinds storable in a sync payload (a JSON-like dict). `t`
represents a string holding a valid ISO-8601 timestamp, identified with
the instant it parses to. -/
inductive Value where
  | s : String → Value
  | i : Int → Value
  | b : Bool → Value
  | null : Value
  | t : Int → Value
deriving DecidableEq, Repr

/-- Parsing a payload value as a timestamp (`datetime.fromisoformat` after
the `Z` replacement): succeeds exactly on valid timestamp strings. -/
def parseTime : Value → Option Int
  | .t n => some n
  | _ => none

/-- A table row / payload dict: association list from field name to value. -/
def Row : Type := List (String × Value)

instance : DecidableEq Row := inferInstanceAs (DecidableEq (List (String × Value)))

instance : Repr Row := inferInstanceAs (Repr (List (String × Value)))

instance : Membership (String × Value) Row := inferInstanceAs (Membership (String × Value) (List (String × Value)))

/-- Dict lookup (`d.get(k)` / `k in d`): first binding wins. -/
def Row.get : Row → String → Option Value
  | [], _ => none
  | (k0, v) :: rest, k => if k0 = k then some v else Row.get rest k

/-- Dict assignment (`d[k] = v`): replace the first binding of `k`, or
append a new binding when `k` is absent. -/
def Row.set : Row → String → Value → Row
  | [], k, v => [(k, v)]
  | (k0, v0) :: rest, k, v =>
    if k0 = k then (k, v) :: rest else (k0, v0) :: Row.set rest k v

/-- Keys of a row, in order. -/
def Row.keys (r : Row) : List String := r.map Prod.fst

/-- Dict merge (`d.update(patch)`): assign every binding of `patch` into
`r`, in order. Also models a Supabase partial `update` patching a row. -/
def updateRow (r : Row) (patch : Row) : Row :=
  patch.foldl (fun acc kv => acc.set kv.1 kv.2) r

/-- Sync operations, from `SyncOperation` in `advanced_sync_service.py`. -/
inductive SyncOperation where
  | create
  | update
  | delete
deriving DecidableEq, Repr

/-- Sync record lifecycle states, from `SyncStatus` in
`advanced_sync_service.py`. -/
inductive SyncStatus where
  | pending
  | processing
  | completed
  | failed
  | conflict
deriving DecidableEq, Repr

/-- Conflict policies, from `ConflictResolution` in
`advanced_sync_service.py`. -/
inductive ConflictResolution where
  | server_wins
  | client_wins
  | merge
  | manual
deriving DecidableEq, Repr

/-- Wire value of a `SyncStatus`, as stored in the `status` column. -/
def SyncStatus.value : SyncStatus → String
  | .pending => "pending"
  | .processing => "processing"
  | .completed => "completed"
  | .failed => "failed"
  | .conflict => "conflict"

/-- Wire value of a `ConflictResolution`, as stored in the
`conflict_resolution` column. -/
def ConflictResolution.value : ConflictResolution → String
  | .server_wins => "server_wins"
  | .client_wins => "client_wins"
  | .merge => "merge"
  | .manual => "manual"

/-- All members of the service-level `SyncStatus` enum. -/
def syncStatusValues : List String :=
  ["pending", "processing", "completed", "failed", "conflict"]

/-- All members of the service-level `ConflictResolution` enum. -/
def conflictResolutionValues : List String :=
  ["server_wins", "client_wins", "merge", "manual"]

/-- A `sync_queue` row, mirroring the `SyncItem` dataclass of
`advanced_sync_service.py` (same shape as the stored table row). -/
structure SyncRec where
  id : String
  user_id : String
  table_name : String
  record_id : String
  operation : SyncOperation
  data : Row
  conflict_resolution : ConflictResolution
  retry_count : Nat
  max_retries : Nat
  status : SyncStatus
  error_message : Option String
  created_at : Int
  processed_at : Option Int
deriving DecidableEq, Repr

/-- Result dict of `_check_for_conflicts`. -/
structure ConflictCheck where
  has_conflict : Bool
  conflict_type : Option String := none
  server_data : Option Row := none
  error : Option String := none
deriving DecidableEq, Repr

/-- Embedding of `AdvancedSyncService._check_for_conflicts`. `readResult`
is the outcome of the point read of the target table at
`(table_name, record_id)`: `Except.error` when the read raises (caught by
the function's `except` clause), otherwise the row found, if any. A
timestamp that fails to parse also lands in the `except` clause. -/
def checkForConflicts (item : SyncRec) (readResult : Except String (Option Row)) : ConflictCheck :=
  match readResult with
  | .error e => { has_conflict := false, error := some e }
  | .ok serverRow =>
    match item.operation with
    | .create =>
      match serverRow with
      | some r =>
        { has_conflict := true, conflict_type := some "record_exists", server_data := some r }
      | none => { has_conflict := false }
    | .update =>
      match serverRow with
      | none =>
        { has_conflict := true, conflict_type := some "record_not_found", server_data := none }
      | some r =>
        match r.get "updated_at", item.data.get "updated_at" with
        | some su, some cu =>
          match parseTime su, parseTime cu with
          | some serverTime, some clientTime =>
            if clientTime < serverTime then
              { has_conflict := true, conflict_type := some "newer_version",
                server_data := some r }
            else
              { has_conflict := false }
          | _, _ => { has_conflict := false, error := some "timestamp parse error" }
        | _, _ => { has_conflict := false }
    | .delete =>
      match serverRow with
      | none => { has_conflict := false }
      | some r =>
        { has_conflict := true, conflict_type := some "record_exists", server_data := some r }

/-- Embedding of the endpoint helper `_has_conflict` in `sync.py`: true
iff both dicts carry parseable `updated_at` stamps and the server one is
strictly newer; any missing or unparseable stamp yields `false`. -/
def hasConflictEndpoint (clientData serverData : Row) : Bool :=
  match clientData.get "updated_at", serverData.get "updated_at" with
  | some cu, some su =>
    match parseTime cu, parseTime su with
    | some clientTime, some serverTime => decide (clientTime < serverTime)
    | _, _ => false
  | _, _ => false

/-- The client-field overlay loop of
`AdvancedSyncService._merge_conflict_data`: walk the client payload
entries; for every key outside the protected set, write the client value
into the accumulator unless the server already holds that exact value. -/
def overlayClient (serverData : Row) : List (String × Value) → Row → Row
  | [], acc => acc
  | (k, v) :: rest, acc =>
    let acc' :=
      if k ≠ "id" ∧ k ≠ "created_at" ∧ k ≠ "updated_at" then
        if serverData.get k = some v then acc else acc.set k v
      else acc
    overlayClient serverData rest acc'

/-- Embedding of the merged dict built by
`AdvancedSyncService._merge_conflict_data`: start from the server
snapshot, overlay client fields, then stamp `updated_at` with the
resolution time. (The Python builds the base with
`merged.update(server_data)` starting from an empty dict, which yields
the server snapshot itself.) -/
def mergeConflictData (clientData serverData : Row) (now : Value) : Row :=
  (overlayClient serverData clientData serverData).set "updated_at" now

/-- Embedding of the endpoint helper `_merge_data` in `sync.py`: copy the
server dict, overlay the whole client dict, restore the server
`created_at` when present, then stamp `updated_at` with the resolution
time. -/
def mergeData (clientData serverData : Row) (now : Value) : Row :=
  let merged := updateRow serverData clientData
  let merged :=
    match serverData.get "created_at" with
    | some v => merged.set "created_at" v
    | none => merged
  merged.set "updated_at" now

/-- Embedding of the endpoint helper `_handle_update_operation` in
`sync.py` (target-table effect): a missing server record is created from
the payload; otherwise the timestamp check decides between a direct
update and the conflict branches (`client_wins` applies the payload,
`merge` applies the merged dict, anything else leaves the row alone). -/
def handleUpdateOperation (data : Row) (res : ConflictResolution) (record_id : String)
    (server : Option Row) (now : Value) : Option Row :=
  match server with
  | none => some (data.set "id" (.s record_id))
  | some sd =>
    if hasConflictEndpoint data sd then
      match res with
      | .client_wins => some (updateRow sd data)
      | .merge => some (updateRow sd (mergeData data sd now))
      | _ => some sd
    else some (updateRow sd data)

/-- State touched while one sync item is processed: the target table row
at `(table_name, record_id)` (if any) and the item's own `sync_queue`
row. -/
structure SyncState where
  target : Option Row
  record : SyncRec
deriving DecidableEq, Repr

/-- Embedding of `AdvancedSyncService._mark_sync_completed`: set
`status=completed` and `processed_at`; overwrite `error_message` only
when a note is supplied. -/
def markSyncCompleted (r : SyncRec) (note : Option String) (now : Int) : SyncRec :=
  { r with
    status := .completed
    processed_at := some now
    error_message :=
      match note with
      | some n => some n
      | none => r.error_message }

/-- Embedding of `AdvancedSyncService._mark_sync_failed`: set
`status=failed`, the error message and `processed_at`. No other column
is written. -/
def markSyncFailed (r : SyncRec) (msg : String) (now : Int) : SyncRec :=
  { r with status := .failed, error_message := some msg, processed_at := some now }

/-- Embedding of `AdvancedSyncService._mark_sync_conflict`: set
`status=conflict`, an error message naming the conflict type, and
`processed_at`. -/
def markSyncConflict (r : SyncRec) (conflictType : Option String) (now : Int) : SyncRec :=
  { r with
    status := .conflict
    error_message := some ("Conflict detected: " ++ conflictType.getD "unknown")
    processed_at := some now }

/-- Outcome of one storage operation: updated target row, success flag,
optional error text. -/
structure ExecOutcome where
  target : Option Row
  success : Bool
  error : Option String := none
deriving DecidableEq, Repr

/-- Embedding of `AdvancedSyncService._execute_create`: insert the
payload; a duplicate at the target id makes the insert raise, which the
function reports as failure. (The model assumes the inserted row lands
at `record_id`.) -/
def executeCreate (item : SyncRec) (target : Option Row) : ExecOutcome :=
  match target with
  | some _ => { target := target, success := false, error := some "duplicate key" }
  | none => { target := some item.data, success := true }

/-- Embedding of `AdvancedSyncService._execute_update`: patch the row at
`record_id` with the payload; no matched row means "No records updated". -/
def executeUpdate (item : SyncRec) (target : Option Row) : ExecOutcome :=
  match target with
  | some r => { target := some (updateRow r item.data), success := true }
  | none => { target := none, success := false, error := some "No records updated" }

/-- Embedding of `AdvancedSyncService._execute_delete`: delete by id,
idempotent, always succeeds. -/
def executeDelete (_item : SyncRec) (_target : Option Row) : ExecOutcome :=
  { target := none, success := true }

/-- Embedding of `AdvancedSyncService._execute_sync_operation`: dispatch
on the operation, then mark the sync row completed on success and failed
otherwise. -/
def executeSyncOperation (item : SyncRec) (st : SyncState) (now : Int) : SyncState × Bool :=
  let out :=
    match item.operation with
    | .create => executeCreate item st.target
    | .update => executeUpdate item st.target
    | .delete => executeDelete item st.target
  if out.success then
    ({ target := out.target, record := markSyncCompleted st.record none now }, true)
  else
    ({ target := out.target,
       record := markSyncFailed st.record (out.error.getD "Operation failed") now }, false)

/-- Embedding of `AdvancedSyncService._force_sync_operation`: apply the
client payload regardless of server state (upsert for create, stamped
update for update, unconditional delete), stamping `updated_at` with the
current time for create/update. -/
def forceSyncOperation (item : SyncRec) (target : Option Row) (now : Int) : Option Row × Bool :=
  match item.operation with
  | .create =>
    let d := (item.data.set "id" (.s item.record_id)).set "updated_at" (.t now)
    match target with
    | some r => (some (updateRow r d), true)
    | none => (some d, true)
  | .update =>
    let d := item.data.set "updated_at" (.t now)
    match target with
    | some r => (some (updateRow r d), true)
    | none => (target, false)
  | .delete => (none, true)

/-- Embedding of `AdvancedSyncService._merge_conflict_data` as a state
transformer: build the merged dict and apply it as an update to the
target row, marking the sync row completed when the update matched. A
missing server snapshot makes the Python raise (`merged.update(None)`),
caught as a failure with no state change; a missing target row yields
"Merge operation failed" with no status change either. -/
def mergeConflictOp (item : SyncRec) (serverData : Option Row) (st : SyncState) (now : Int) :
    SyncState × Bool :=
  match serverData with
  | none => (st, false)
  | some sd =>
    let merged := mergeConflictData item.data sd (.t now)
    match st.target with
    | some r =>
      ({ target := some (updateRow r merged), record := markSyncCompleted st.record none now }, true)
    | none => (st, false)

/-- Embedding of `AdvancedSyncService._handle_conflict`: dispatch on the
item's conflict policy. Note the `client_wins` branch returns the forced
operation's result without touching the sync row's status. -/
def handleConflict (item : SyncRec) (cr : ConflictCheck) (st : SyncState) (now : Int) :
    SyncState × Bool :=
  match item.conflict_resolution with
  | .server_wins => ({ st with record := markSyncCompleted st.record none now }, true)
  | .client_wins =>
    let (tgt, ok) := forceSyncOperation item st.target now
    ({ st with target := tgt }, ok)
  | .merge => mergeConflictOp item cr.server_data st now
  | .manual => ({ st with record := markSyncConflict st.record cr.conflict_type now }, false)

/-- Embedding of `AdvancedSyncService._process_sync_item`: run conflict
detection on the target read, hand detected conflicts to the resolver,
otherwise execute the operation directly. -/
def processSyncItem (item : SyncRec) (readResult : Except String (Option Row))
    (st : SyncState) (now : Int) : SyncState × Bool :=
  let cr := checkForConflicts item readResult
  if cr.has_conflict then handleConflict item cr st now
  else executeSyncOperation item st now

/-- Embedding of `AdvancedSyncService._update_sync_status` as invoked by
`_process_user_batch` on a whole batch: every row whose id is listed is
set to the given status in one sweep, stamping `processed_at` when the
status is `processing`; rows outside the id list are untouched. -/
def updateSyncStatus (table : List SyncRec) (ids : List String) (st : SyncStatus)
    (now : Int) : List SyncRec :=
  table.map fun r =>
    if ids.contains r.id then
      { r with
        status := st
        processed_at := if st = SyncStatus.processing then some now else r.processed_at }
    else r

/-- Number of rows currently `processing` for one
`(table_name, record_id)` target. -/
def countProcessingAt (table : List SyncRec) (t rid : String) : Nat :=
  table.countP fun r =>
    r.status == SyncStatus.processing && r.table_name == t && r.record_id == rid

/-- Group key used by `AdvancedSyncService._optimize_user_sync`
(`f"{item.table_name}:{item.record_id}"`). -/
def syncGroupKey (r : SyncRec) : String := r.table_name ++ ":" ++ r.record_id

/-- Embedding of `AdvancedSyncService._consolidate_sync_items`: sort the
group by `created_at` ascending (Python's stable sort), keep the last
item untouched, and mark every earlier item completed with the
superseded note. Returns the marked older rows and the kept item. -/
def consolidateSyncItems (items : List SyncRec) (now : Int) :
    List SyncRec × Option SyncRec :=
  let sorted := items.mergeSort fun a b => decide (a.created_at ≤ b.created_at)
  (sorted.dropLast.map fun it =>
      markSyncCompleted it (some "superseded_by_newer_operation") now,
   sorted.getLast?)

/-- Eligibility filter of the `POST /sync/retry-failed` endpoint query:
`status = failed` and `retry_count < max_retries` (the query parameter). -/
def isEligibleForRetry (r : SyncRec) (bound : Nat) : Bool :=
  r.status == SyncStatus.failed && r.retry_count < bound

/-- Embedding of the endpoint helper `_process_sync_item` in `sync.py`
(statuses only; the target-table effect is abstracted into `attempt`,
the outcome of the create/update/delete handler): a fresh `sync_queue`
row is inserted with `status=processing`, then marked completed on
success, or failed with the error and an incremented retry count. -/
def processSyncItemEndpoint (src : SyncRec) (newId : String)
    (attempt : Except String Unit) (now : Int) : SyncRec :=
  let row : SyncRec :=
    { src with
      id := newId
      status := SyncStatus.processing
      retry_count := 0
      max_retries := 3
      error_message := none
      created_at := now
      processed_at := none }
  match attempt with
  | .ok _ => { row with status := SyncStatus.completed, processed_at := some now }
  | .error e =>
    { row with
      status := SyncStatus.failed
      error_message := some e
      retry_count := row.retry_count + 1 }

/-- Result of one iteration of the `retry_failed_sync_items` loop. -/
structure RetryStep where
  original : SyncRec
  newItem : Option SyncRec
deriving DecidableEq, Repr

/-- Embedding of one iteration of `retry_failed_sync_items` in `sync.py`
over an eligible failed row `r`. `outcome` distinguishes the endpoint
processor returning a row (`Except.ok attempt`, with `attempt` the inner
execution outcome it absorbed) from the processor itself raising
(`Except.error`, e.g. the insert failed). When the processor returns,
the original row is marked completed; when it raises, the original's
retry count is incremented and the error recorded. -/
def retryFailedStep (r : SyncRec) (newId : String)
    (outcome : Except String (Except String Unit)) (now : Int) : RetryStep :=
  match outcome with
  | .ok attempt =>
    { original := { r with status := SyncStatus.completed, processed_at := some now }
      newItem := some (processSyncItemEndpoint r newId attempt now) }
  | .error e =>
    { original := { r with retry_count := r.retry_count + 1, error_message := some e }
      newItem := none }

/-- The `status` values admitted by the public `SyncQueue` Pydantic model
(`Literal` in `backend/app/models/sync.py`). -/
def syncQueueStatusLiterals : List String :=
  ["pending", "processing", "completed", "failed"]

/-- The `conflict_resolution` values admitted by the public `SyncQueue`
Pydantic model (`Literal` in `backend/app/models/sync.py`). -/
def syncQueueResolutionLiterals : List String :=
  ["server_wins", "client_wins", "merge"]

/-- Validation performed by `SyncQueue(**row)`: the row parses iff its
status and conflict-resolution columns are among the model's `Literal`
values. -/
def syncQueueParses (r : SyncRec) : Bool :=
  syncQueueStatusLiterals.contains r.status.value &&
    syncQueueResolutionLiterals.contains r.conflict_resolution.value

/-- The aggregate counts returned by `GET /sync/status`. -/
structure SyncStatistics where
  pending : Nat
  processing : Nat
  failed : Nat
  completed : Nat
  total : Nat
deriving DecidableEq, Repr

/-- The body returned by `GET /sync/status` (fields relevant to the
claims). -/
structure SyncStatusResponse where
  sync_items : List SyncRec
  statistics : SyncStatistics
  has_pending_changes : Bool
  has_conflicts : Bool
deriving DecidableEq, Repr

/-- The page query of `get_sync_status` in `sync.py`: the caller's rows,
minus completed ones unless `include_completed`, newest first, truncated
to `limit`. -/
def getSyncStatusPage (table : List SyncRec) (userId : String)
    (includeCompleted : Bool) (limit : Nat) : List SyncRec :=
  let q := table.filter fun r => r.user_id == userId
  let q := if includeCompleted then q else q.filter fun r => r.status != SyncStatus.completed
  (q.mergeSort fun a b => decide (b.created_at ≤ a.created_at)).take limit

/-- Embedding of `get_sync_status` in `sync.py`: fetch the page, parse
each row through the `SyncQueue` model (a row outside the model's
literals raises, turning the request into an error response), then
compute the aggregate counts over the parsed page; `has_conflicts` is
`failed_count > 0`. -/
def getSyncStatus (table : List SyncRec) (userId : String)
    (includeCompleted : Bool) (limit : Nat) : Except String SyncStatusResponse :=
  let page := getSyncStatusPage table userId includeCompleted limit
  if page.all syncQueueParses then
    let pendingCount := (page.filter fun r => r.status == SyncStatus.pending).length
    let processingCount := (page.filter fun r => r.status == SyncStatus.processing).length
    let failedCount := (page.filter fun r => r.status == SyncStatus.failed).length
    let completedCount := (page.filter fun r => r.status == SyncStatus.completed).length
    .ok
      { sync_items := page
        statistics :=
          { pending := pendingCount
            processing := processingCount
            failed := failedCount
            completed := completedCount
            total := page.length }
        has_pending_changes := pendingCount > 0 || processingCount > 0
        has_conflicts := failedCount > 0 }
  else
    .error "validation error"

/-- A baseline queued sync record used to build concrete test records. -/
def baseRec : SyncRec :=
  { id := "s1"
    user_id := "u1"
    table_name := "tasks"
    record_id := "r1"
    operation := SyncOperation.update
    data := []
    conflict_resolution := ConflictResolution.server_wins
    retry_count := 0
    max_retries := 3
    status := SyncStatus.pending
    error_message := none
    created_at := 0
    processed_at := none }

/-- Concrete update item whose payload carries client stamp 5. -/
def itemC1 : SyncRec :=
  { baseRec with data := [("updated_at", Value.t 5), ("title", Value.s "walk")] }

/-- Concrete server row whose stamp 7 is strictly newer than the client's. -/
def serverC1 : Row := [("id", Value.s "r1"), ("updated_at", Value.t 7)]

/-- Concrete client payload carrying its own `id` field. -/
def clientC2 : Row :=
  [("id", Value.s "cid"), ("updated_at", Value.t 5), ("color", Value.s "red")]

/-- Concrete server snapshot with a different `id`. -/
def serverC2 : Row :=
  [("id", Value.s "sid"), ("updated_at", Value.t 10), ("created_at", Value.t 1),
   ("color", Value.s "blue")]

/-- Concrete record about to fail processing. -/
def recC3 : SyncRec :=
  { baseRec with
    status := SyncStatus.processing
    retry_count := 0 }

/-- Concrete failed record still below the retry bound. -/
def recC3fail : SyncRec :=
  { baseRec with
    status := SyncStatus.failed
    retry_count := 1 }

/-- Concrete record exhausted past the retry bound. -/
def recC3over : SyncRec :=
  { baseRec with
    status := SyncStatus.failed
    retry_count := 3 }

/-- Concrete pending group on one `(table_name, record_id)` target. -/
def itemsC4 : List SyncRec :=
  [{ baseRec with id := "s1", created_at := 1 },
   { baseRec with id := "s2", created_at := 3 },
   { baseRec with id := "s3", created_at := 2 }]

/-- Concrete table holding two pending records for the same target. -/
def tableC5 : List SyncRec :=
  [{ baseRec with id := "a", created_at := 1 },
   { baseRec with id := "b", created_at := 2 }]

/-- Concrete eligible failed record. -/
def recC6 : SyncRec :=
  { baseRec with
    status := SyncStatus.failed
    retry_count := 0
    error_message := some "old failure" }

/-- Concrete item carrying the ServerWins policy. -/
def itemC7 : SyncRec := { baseRec with conflict_resolution := ConflictResolution.server_wins }

/-- Concrete processing state for the ServerWins resolution. -/
def stC7 : SyncState :=
  { target := some [("id", Value.s "r1"), ("done", Value.b false)]
    record := { baseRec with status := SyncStatus.processing } }

/-- Concrete record in the Conflict status with the Manual policy. -/
def recC8 : SyncRec :=
  { baseRec with
    status := SyncStatus.conflict
    conflict_resolution := ConflictResolution.manual }

/-- Concrete sync-queue table for the status endpoint. -/
def tableC10 : List SyncRec :=
  [{ baseRec with id := "p1", status := SyncStatus.pending, created_at := 1 },
   { baseRec with id := "f1", status := SyncStatus.failed, created_at := 2 },
   { baseRec with id := "c1", status := SyncStatus.completed, created_at := 3 },
   { baseRec with id := "o1", user_id := "u2", status := SyncStatus.failed, created_at := 4 }]

/-- The page the status endpoint returns for `tableC10`. -/
def pageC10 : List SyncRec := getSyncStatusPage tableC10 "u1" false 10

/-- The response body the status endpoint returns for `tableC10`. -/
def respC10 : SyncStatusResponse :=
  { sync_items := pageC10
    statistics :=
      { pending := (pageC10.filter fun r => r.status == SyncStatus.pending).length
        processing := (pageC10.filter fun r => r.status == SyncStatus.processing).length
        failed := (pageC10.filter fun r => r.status == SyncStatus.failed).length
        completed := (pageC10.filter fun r => r.status == SyncStatus.completed).length
        total := pageC10.length }
    has_pending_changes :=
      (pageC10.filter fun r => r.status == SyncStatus.pending).length > 0 ||
        (pageC10.filter fun r => r.status == SyncStatus.processing).length > 0
    has_conflicts := (pageC10.filter fun r => r.status == SyncStatus.failed).length > 0 }

theorem Row.get_set_self (r : Row) (k : String) (v : Value) : (r.set k v).get k = some v := by
  induction r with
  | nil => simp [Row.set, Row.get]
  | cons kv rest ih =>
    obtain ⟨k0, v0⟩ := kv
    by_cases h : k0 = k
    · simp [Row.set, Row.get, h]
    · simp [Row.set, Row.get, h, ih]

theorem Row.get_set_ne (r : Row) (k k' : String) (v : Value) (h : k ≠ k') :
    (r.set k v).get k' = r.get k' := by
  induction r with
  | nil => simp [Row.set, Row.get, h]
  | cons kv rest ih =>
    obtain ⟨k0, v0⟩ := kv
    by_cases h0 : k0 = k
    · simp [Row.set, Row.get, h0, h]
    · simp [Row.set, Row.get, h0, ih]

theorem Row.get_eq_none (r : Row) (k : String) (h : k ∉ r.keys) : r.get k = none := by
  induction r with
  | nil => simp [Row.get]
  | cons kv rest ih =>
    obtain ⟨k0, v0⟩ := kv
    simp [Row.keys] at h
    have hne : ¬k0 = k := fun hh => h.1 hh.symm
    have hrest : k ∉ Row.keys rest := by
      simp [Row.keys]
      exact h.2
    simp [Row.get, hne, ih hrest]

theorem updateRow_get (r patch : Row) (k : String) (h : patch.keys.Nodup) :
    (updateRow r patch).get k = (patch.get k).or (r.get k) := by
  induction patch generalizing r with
  | nil => simp [updateRow, Row.get]
  | cons kv rest ih =>
    obtain ⟨k0, v0⟩ := kv
    simp [Row.keys] at h
    have hstep : updateRow r ((k0, v0) :: rest) = updateRow (r.set k0 v0) rest := by
      simp [updateRow]
    rw [hstep, ih _ (by simpa [Row.keys] using h.2)]
    by_cases hk : k0 = k
    · subst hk
      have hrest : Row.get rest k0 = none :=
        Row.get_eq_none rest k0 (by simpa [Row.keys] using h.1)
      simp [Row.get, hrest, Row.get_set_self]
    · simp [Row.get, hk, Row.get_set_ne r k0 k v0 hk]

theorem overlayClient_get (s : Row) (c : List (String × Value)) (acc : Row) (k : String)
    (hnd : (c.map Prod.fst).Nodup) :
    (overlayClient s c acc).get k =
      if (k ≠ "id" ∧ k ≠ "created_at" ∧ k ≠ "updated_at") ∧
         (Row.get c k).isSome ∧ Row.get c k ≠ s.get k
      then Row.get c k else acc.get k := by
  induction c generalizing acc with
  | nil => simp [overlayClient, Row.get]
  | cons kv rest ih =>
    obtain ⟨k0, v0⟩ := kv
    simp at hnd
    have hrestnd : (rest.map Prod.fst).Nodup := hnd.2
    by_cases hk : k0 = k
    · subst hk
      have hcget : Row.get ((k0, v0) :: rest) k0 = some v0 := by simp [Row.get]
      have hrestget : Row.get rest k0 = none := by
        apply Row.get_eq_none
        simp [Row.keys]
        exact hnd.1
      by_cases hprot : k0 ≠ "id" ∧ k0 ≠ "created_at" ∧ k0 ≠ "updated_at"
      · by_cases hsv : s.get k0 = some v0
        · have : overlayClient s ((k0, v0) :: rest) acc = overlayClient s rest acc := by
            simp [overlayClient, hprot, hsv]
          rw [this, ih acc hrestnd, hrestget]
          simp [hcget, hsv]
        · have : overlayClient s ((k0, v0) :: rest) acc =
              overlayClient s rest (acc.set k0 v0) := by
            simp [overlayClient, hprot, hsv]
          have hsv' : ¬some v0 = s.get k0 := fun h => hsv h.symm
          rw [this, ih (acc.set k0 v0) hrestnd, hrestget]
          simp [hcget, hprot, Row.get_set_self, hsv']
      · have : overlayClient s ((k0, v0) :: rest) acc = overlayClient s rest acc := by
          simp [overlayClient, hprot]
        rw [this, ih acc hrestnd, hrestget]
        simp [hcget, hprot]
    · have hcget : Row.get ((k0, v0) :: rest) k = Row.get rest k := by simp [Row.get, hk]
      have hacc : ∀ a : Row,
          overlayClient s ((k0, v0) :: rest) a = overlayClient s rest
            (if k0 ≠ "id" ∧ k0 ≠ "created_at" ∧ k0 ≠ "updated_at" then
               if s.get k0 = some v0 then a else a.set k0 v0
             else a) := by
        intro a
        simp [overlayClient]
      rw [hacc acc]
      by_cases hprot : k0 ≠ "id" ∧ k0 ≠ "created_at" ∧ k0 ≠ "updated_at"
      · by_cases hsv : s.get k0 = some v0
        · rw [if_pos hprot, if_pos hsv, ih acc hrestnd, hcget]
        · rw [if_pos hprot, if_neg hsv, ih (acc.set k0 v0) hrestnd, hcget,
            Row.get_set_ne acc k0 k v0 hk]
      · rw [if_neg hprot, ih acc hrestnd, hcget]

theorem mergeConflictData_get (c s : Row) (now : Value) (k : String)
    (hnd : (c.map Prod.fst).Nodup) :
    (mergeConflictData c s now).get k =
      if k = "updated_at" then some now
      else if k ≠ "id" ∧ k ≠ "created_at" ∧ (Row.get c k).isSome then Row.get c k
      else s.get k := by
  unfold mergeConflictData
  by_cases hu : k = "updated_at"
  · subst hu
    rw [Row.get_set_self]
    simp
  · rw [Row.get_set_ne _ _ _ _ (fun h => hu h.symm)]
    rw [overlayClient_get s c s k hnd]
    by_cases hid : k = "id"
    · simp [hid]
    · by_cases hca : k = "created_at"
      · simp [hca]
      · by_cases hsome : (Row.get c k).isSome
        · by_cases heq : Row.get c k = s.get k
          · simp [hid, hca, hu, hsome, heq]
          · simp [hid, hca, hu, hsome, heq]
        · simp [hid, hca, hu, hsome]

theorem mergeData_get_updated (c s : Row) (now : Value) :
    (mergeData c s now).get "updated_at" = some now := by
  unfold mergeData
  cases hca : s.get "created_at" <;> simp [Row.get_set_self]

theorem mergeData_get_created (c s : Row) (now : Value) (hnd : (c.map Prod.fst).Nodup) :
    (mergeData c s now).get "created_at" =
      if (s.get "created_at").isSome then s.get "created_at" else Row.get c "created_at" := by
  unfold mergeData
  have hne : ("updated_at" : String) ≠ "created_at" := by decide
  cases hca : s.get "created_at" with
  | some v =>
    rw [Row.get_set_ne _ _ _ _ hne, Row.get_set_self]
    simp [hca]
  | none =>
    rw [Row.get_set_ne _ _ _ _ hne, updateRow_get s c "created_at" hnd]
    simp [hca]

theorem mergeData_get_other (c s : Row) (now : Value) (k : String)
    (hnd : (c.map Prod.fst).Nodup) (h1 : k ≠ "updated_at") (h2 : k ≠ "created_at") :
    (mergeData c s now).get k = (Row.get c k).or (s.get k) := by
  unfold mergeData
  cases hca : s.get "created_at" with
  | some v =>
    rw [Row.get_set_ne _ _ _ _ (fun h => h1 h.symm),
      Row.get_set_ne _ _ _ _ (fun h => h2 h.symm), updateRow_get s c k hnd]
  | none =>
    rw [Row.get_set_ne _ _ _ _ (fun h => h1 h.symm), updateRow_get s c k hnd]

theorem syncQueueParses_iff (r : SyncRec) :
    syncQueueParses r = true ↔
      r.status ≠ SyncStatus.conflict ∧ r.conflict_resolution ≠ ConflictResolution.manual := by
  cases hst : r.status <;> cases hcr : r.conflict_resolution <;>
    simp [syncQueueParses, syncQueueStatusLiterals, syncQueueResolutionLiterals,
      SyncStatus.value, ConflictResolution.value, hst, hcr]

/-- C1: for an `Update` sync record, conflict detection reports
`record_not_found` when no server record exists, reports `newer_version`
exactly when the server's `updated_at` stamp is strictly newer than the
stamp embedded in the client payload, and reports no conflict when the
two stamps are equal (so the client's update proceeds); the endpoint's
`_has_conflict` agrees on the timestamp comparison. -/
theorem update_conflict_detection_c1 (item : SyncRec) (server : Row) (ts tc : Int)
    (hop : item.operation = SyncOperation.update)
    (hs : server.get "updated_at" = some (Value.t ts))
    (hc : item.data.get "updated_at" = some (Value.t tc)) :
    (checkForConflicts item (Except.ok none)).has_conflict = true ∧
    (checkForConflicts item (Except.ok none)).conflict_type = some "record_not_found" ∧
    (checkForConflicts item (Except.ok (some server))).has_conflict = decide (tc < ts) ∧
    (checkForConflicts item (Except.ok (some server))).conflict_type =
      (if tc < ts then some "newer_version" else none) ∧
    hasConflictEndpoint item.data server = decide (tc < ts) := by
  simp only [checkForConflicts, hasConflictEndpoint, hop, hs, hc, parseTime]
  by_cases h : tc < ts <;> simp [h]

/-- C1 witness: a concrete update whose client stamp 5 is older than the
server stamp 7 triggers the `newer_version` conflict, and a missing
server record triggers `record_not_found`. -/
theorem update_conflict_detection_c1_witness :
    (checkForConflicts itemC1 (Except.ok none)).has_conflict = true ∧
    (checkForConflicts itemC1 (Except.ok none)).conflict_type = some "record_not_found" ∧
    (checkForConflicts itemC1 (Except.ok (some serverC1))).has_conflict = decide ((5 : Int) < 7) ∧
    (checkForConflicts itemC1 (Except.ok (some serverC1))).conflict_type =
      (if (5 : Int) < 7 then some "newer_version" else none) ∧
    hasConflictEndpoint itemC1.data serverC1 = decide ((5 : Int) < 7) :=
  update_conflict_detection_c1 itemC1 serverC1 7 5 rfl (by decide) (by decide)

/-- C2 counterexample: resolving a conflicting update with the `Merge`
policy through the endpoint path (`_handle_update_operation` /
`_merge_data`) persists the client's `id` field: the final state's `id`
is the client's "cid", not the server's "sid", so `id` is not a
protected field on this path. -/
theorem merge_policy_c2_counterexample :
    hasConflictEndpoint clientC2 serverC2 = true ∧
    handleUpdateOperation clientC2 ConflictResolution.merge "r1" (some serverC2) (Value.t 20) =
      some (updateRow serverC2 (mergeData clientC2 serverC2 (Value.t 20))) ∧
    (updateRow serverC2 (mergeData clientC2 serverC2 (Value.t 20))).get "id" =
      some (Value.s "cid") ∧
    serverC2.get "id" = some (Value.s "sid") ∧
    ¬((updateRow serverC2 (mergeData clientC2 serverC2 (Value.t 20))).get "id" =
        serverC2.get "id") := by
  decide

/-- C2 (amended): in the advanced sync service's merge
(`_merge_conflict_data`) the merged state is the server snapshot with
every client field overlaid except the protected `id` and `created_at`,
and `updated_at` set to the resolution time — exactly as claimed. In the
endpoint merge (`_merge_data`) only `created_at` is protected and
`updated_at` stamped: every other field present in the client payload,
`id` included, overwrites the server value. -/
theorem merge_policy_c2 (c s : Row) (now : Value) (k : String)
    (hnd : (c.map Prod.fst).Nodup)
    (hk1 : k ≠ "updated_at") (hk2 : k ≠ "created_at") (hk3 : k ≠ "id") :
    (mergeConflictData c s now).get "updated_at" = some now ∧
    (mergeConflictData c s now).get "id" = s.get "id" ∧
    (mergeConflictData c s now).get "created_at" = s.get "created_at" ∧
    (mergeConflictData c s now).get k =
      (if (Row.get c k).isSome then Row.get c k else s.get k) ∧
    (mergeData c s now).get "updated_at" = some now ∧
    (mergeData c s now).get "created_at" =
      (if (s.get "created_at").isSome then s.get "created_at" else Row.get c "created_at") ∧
    (mergeData c s now).get "id" = (Row.get c "id").or (s.get "id") ∧
    (mergeData c s now).get k = (Row.get c k).or (s.get k) := by
  refine ⟨?_, ?_, ?_, ?_, mergeData_get_updated c s now,
    mergeData_get_created c s now hnd,
    mergeData_get_other c s now "id" hnd (by decide) (by decide),
    mergeData_get_other c s now k hnd hk1 hk2⟩
  · rw [mergeConflictData_get c s now "updated_at" hnd]
    simp
  · rw [mergeConflictData_get c s now "id" hnd]
    simp
  · rw [mergeConflictData_get c s now "created_at" hnd]
    simp
  · rw [mergeConflictData_get c s now k hnd]
    simp [hk1, hk2, hk3]

/-- C2 witness: the amended merge characterization evaluated at a
concrete client payload, server snapshot and field "color". -/
theorem merge_policy_c2_witness :
    (mergeConflictData clientC2 serverC2 (Value.t 20)).get "updated_at" = some (Value.t 20) ∧
    (mergeConflictData clientC2 serverC2 (Value.t 20)).get "id" = serverC2.get "id" ∧
    (mergeConflictData clientC2 serverC2 (Value.t 20)).get "created_at" =
      serverC2.get "created_at" ∧
    (mergeConflictData clientC2 serverC2 (Value.t 20)).get "color" =
      (if (Row.get clientC2 "color").isSome then Row.get clientC2 "color"
       else serverC2.get "color") ∧
    (mergeData clientC2 serverC2 (Value.t 20)).get "updated_at" = some (Value.t 20) ∧
    (mergeData clientC2 serverC2 (Value.t 20)).get "created_at" =
      (if (serverC2.get "created_at").isSome then serverC2.get "created_at"
       else Row.get clientC2 "created_at") ∧
    (mergeData clientC2 serverC2 (Value.t 20)).get "id" =
      (Row.get clientC2 "id").or (serverC2.get "id") ∧
    (mergeData clientC2 serverC2 (Value.t 20)).get "color" =
      (Row.get clientC2 "color").or (serverC2.get "color") :=
  merge_policy_c2 clientC2 serverC2 (Value.t 20) "color" (by decide) (by decide) (by decide)
    (by decide)

/-- C3 counterexample: marking a processing record failed through the
advanced sync service's `_mark_sync_failed` records the error and the
Failed status but leaves `retry_count` at 0 — the claimed increment does
not happen. -/
theorem retry_bound_c3_counterexample :
    (markSyncFailed recC3 "boom" 7).status = SyncStatus.failed ∧
    (markSyncFailed recC3 "boom" 7).error_message = some "boom" ∧
    (markSyncFailed recC3 "boom" 7).retry_count = 0 ∧
    ¬((markSyncFailed recC3 "boom" 7).retry_count = recC3.retry_count + 1) := by
  decide

/-- C3 (amended): an automatic processing failure marks the record Failed
with the underlying error message but leaves `retry_count` unchanged
(the increment happens only on the endpoint paths); after an explicit
retry of an eligible Failed record, its `retry_count` never exceeds the
retry bound, and a record at or above the bound is not selected for
retry at all. -/
theorem retry_bound_c3 (r r2 : SyncRec) (msg : String) (now now2 : Int) (bound : Nat)
    (newId : String) (oc : Except String (Except String Unit))
    (helig : isEligibleForRetry r bound = true)
    (hover : bound ≤ r2.retry_count) :
    (markSyncFailed r msg now).status = SyncStatus.failed ∧
    (markSyncFailed r msg now).error_message = some msg ∧
    (markSyncFailed r msg now).retry_count = r.retry_count ∧
    (retryFailedStep r newId oc now2).original.retry_count ≤ bound ∧
    isEligibleForRetry r2 bound = false := by
  have hlt : r.retry_count < bound := by
    simp [isEligibleForRetry] at helig
    exact helig.2
  refine ⟨rfl, rfl, rfl, ?_, ?_⟩
  · cases oc with
    | ok a =>
      simp [retryFailedStep]
      omega
    | error e =>
      simp [retryFailedStep]
      omega
  · simp [isEligibleForRetry]
    intro _
    omega

/-- C3 witness: the amended statement evaluated on a concrete eligible
failed record (retry count 1, bound 3) and a concrete exhausted record
(retry count 3, bound 3). -/
theorem retry_bound_c3_witness :
    (markSyncFailed recC3fail "boom" 7).status = SyncStatus.failed ∧
    (markSyncFailed recC3fail "boom" 7).error_message = some "boom" ∧
    (markSyncFailed recC3fail "boom" 7).retry_count = recC3fail.retry_count ∧
    (retryFailedStep recC3fail "n2" (Except.error "again") 9).original.retry_count ≤ 3 ∧
    isEligibleForRetry recC3over 3 = false :=
  retry_bound_c3 recC3fail recC3over "boom" 7 9 3 "n2" (Except.error "again") (by decide)
    (by decide)

/-- C7: resolving a detected conflict under the ServerWins policy leaves
the target table row untouched, marks the sync record Completed, and
reports success. -/
theorem server_wins_frame_c7 (item : SyncRec) (cr : ConflictCheck) (st : SyncState) (now : Int)
    (hpol : item.conflict_resolution = ConflictResolution.server_wins) :
    (handleConflict item cr st now).1.target = st.target ∧
    (handleConflict item cr st now).1.record.status = SyncStatus.completed ∧
    (handleConflict item cr st now).2 = true := by
  simp [handleConflict, hpol, markSyncCompleted]

/-- C7 witness: the ServerWins frame property evaluated on a concrete
conflicting item and state. -/
theorem server_wins_frame_c7_witness :
    (handleConflict itemC7
        { has_conflict := true, conflict_type := some "newer_version",
          server_data := some serverC1 } stC7 9).1.target = stC7.target ∧
    (handleConflict itemC7
        { has_conflict := true, conflict_type := some "newer_version",
          server_data := some serverC1 } stC7 9).1.record.status = SyncStatus.completed ∧
    (handleConflict itemC7
        { has_conflict := true, conflict_type := some "newer_version",
          server_data := some serverC1 } stC7 9).2 = true :=
  server_wins_frame_c7 itemC7
    { has_conflict := true, conflict_type := some "newer_version",
      server_data := some serverC1 } stC7 9 rfl

/-- C9: when the conflict-detection read raises, `_check_for_conflicts`
returns `has_conflict = false` (carrying the error only in its own
result dict), and `_process_sync_item` therefore proceeds to direct
execution exactly as if no conflict existed — the record is not marked
Failed or Conflict by the detection error itself. -/
theorem detection_error_fallthrough_c9 (item : SyncRec) (e : String) (st : SyncState)
    (now : Int) :
    (checkForConflicts item (Except.error e)).has_conflict = false ∧
    (checkForConflicts item (Except.error e)).error = some e ∧
    processSyncItem item (Except.error e) st now = executeSyncOperation item st now := by
  refine ⟨rfl, rfl, ?_⟩
  simp [processSyncItem, checkForConflicts]

/-- C6 counterexample: retrying a concrete eligible Failed record never
produces a Pending record. When the processor returns, the original is
marked Completed and the new row ends Completed; when the processor
raises, the original stays Failed with an incremented retry count and no
new row survives. -/
theorem retry_requeue_c6_counterexample :
    isEligibleForRetry recC6 3 = true ∧
    (retryFailedStep recC6 "n1" (Except.ok (Except.ok ())) 9).original.status =
      SyncStatus.completed ∧
    (retryFailedStep recC6 "n1" (Except.ok (Except.ok ())) 9).original.status ≠
      SyncStatus.pending ∧
    ((retryFailedStep recC6 "n1" (Except.ok (Except.ok ())) 9).newItem.map SyncRec.status) =
      some SyncStatus.completed ∧
    ((retryFailedStep recC6 "n1" (Except.ok (Except.ok ())) 9).newItem.map SyncRec.status) ≠
      some SyncStatus.pending ∧
    ((retryFailedStep recC6 "n1" (Except.ok (Except.error "exec failed")) 9).newItem.map
        SyncRec.status) = some SyncStatus.failed ∧
    (retryFailedStep recC6 "n1" (Except.error "insert failed") 9).original.status =
      SyncStatus.failed ∧
    (retryFailedStep recC6 "n1" (Except.error "insert failed") 9).newItem = none := by
  decide

/-- C6 (amended): a Failed record is never re-enqueued as Pending; the
explicit retry request immediately re-processes each eligible Failed
record (one whose `retry_count` is below the retry bound) by inserting a
new record in Processing status. On return the original is marked
Completed and the new record ends Completed or Failed; on a raise the
original keeps its Failed status with `retry_count` incremented. No
status on this path is ever Pending. -/
theorem retry_requeue_c6 (r : SyncRec) (bound : Nat) (newId : String) (now : Int)
    (attempt : Except String Unit) (e : String)
    (helig : isEligibleForRetry r bound = true) :
    (retryFailedStep r newId (Except.ok attempt) now).original.status =
      SyncStatus.completed ∧
    ((retryFailedStep r newId (Except.ok attempt) now).newItem.map SyncRec.status) =
      some (match attempt with
            | .ok _ => SyncStatus.completed
            | .error _ => SyncStatus.failed) ∧
    ((retryFailedStep r newId (Except.ok attempt) now).newItem.map SyncRec.status) ≠
      some SyncStatus.pending ∧
    (retryFailedStep r newId (Except.error e) now).original.status = SyncStatus.failed ∧
    (retryFailedStep r newId (Except.error e) now).original.retry_count =
      r.retry_count + 1 ∧
    (retryFailedStep r newId (Except.error e) now).original.status ≠ SyncStatus.pending := by
  have hfailed : r.status = SyncStatus.failed := by
    simp [isEligibleForRetry] at helig
    exact helig.1
  refine ⟨rfl, ?_, ?_, ?_, rfl, ?_⟩
  · cases attempt <;> simp [retryFailedStep, processSyncItemEndpoint]
  · cases attempt <;> simp [retryFailedStep, processSyncItemEndpoint]
  · simp [retryFailedStep, hfailed]
  · simp [retryFailedStep, hfailed]

/-- C6 witness: the amended retry behaviour evaluated on a concrete
eligible failed record with bound 3. -/
theorem retry_requeue_c6_witness :
    (retryFailedStep recC3fail "n3" (Except.ok (Except.ok ())) 9).original.status =
      SyncStatus.completed ∧
    ((retryFailedStep recC3fail "n3" (Except.ok (Except.ok ())) 9).newItem.map
        SyncRec.status) =
      some (match (Except.ok () : Except String Unit) with
            | .ok _ => SyncStatus.completed
            | .error _ => SyncStatus.failed) ∧
    ((retryFailedStep recC3fail "n3" (Except.ok (Except.ok ())) 9).newItem.map
        SyncRec.status) ≠ some SyncStatus.pending ∧
    (retryFailedStep recC3fail "n3" (Except.error "boom") 9).original.status =
      SyncStatus.failed ∧
    (retryFailedStep recC3fail "n3" (Except.error "boom") 9).original.retry_count =
      recC3fail.retry_count + 1 ∧
    (retryFailedStep recC3fail "n3" (Except.error "boom") 9).original.status ≠
      SyncStatus.pending :=
  retry_requeue_c6 recC3fail 3 "n3" 9 (Except.ok ()) "boom" (by decide)

/-- C8 counterexample: the service-level enums do contain `conflict` and
`manual`, but the public `SyncQueue` model's literal sets do not — a
record holding the Manual policy or occupying the Conflict status cannot
be returned over the public sync interface (its validation fails). -/
theorem policy_status_domain_c8_counterexample :
    syncStatusValues.contains "conflict" = true ∧
    conflictResolutionValues.contains "manual" = true ∧
    syncQueueStatusLiterals.contains SyncStatus.conflict.value = false ∧
    syncQueueResolutionLiterals.contains ConflictResolution.manual.value = false ∧
    syncQueueParses recC8 = false := by
  decide

/-- C8 (amended): the service-level `SyncStatus` and
`ConflictResolution` enums take exactly the five claimed statuses and
four claimed policies, but the public interface's `SyncQueue` model
restricts status to four values (no `conflict`) and the policy to three
values (no `manual`): a record parses through the public model exactly
when it is neither in Conflict status nor under the Manual policy. -/
theorem policy_status_domain_c8 :
    (∀ s : SyncStatus, syncStatusValues.contains s.value = true) ∧
    (∀ c : ConflictResolution, conflictResolutionValues.contains c.value = true) ∧
    syncStatusValues.length = 5 ∧
    conflictResolutionValues.length = 4 ∧
    syncQueueStatusLiterals.contains "conflict" = false ∧
    syncQueueResolutionLiterals.contains "manual" = false ∧
    (∀ r : SyncRec, syncQueueParses r = true ↔
      r.status ≠ SyncStatus.conflict ∧ r.conflict_resolution ≠ ConflictResolution.manual) := by
  refine ⟨?_, ?_, by decide, by decide, by decide, by decide, syncQueueParses_iff⟩
  · intro s
    cases s <;> decide
  · intro c
    cases c <;> decide

/-- C5 counterexample: the scheduler's `_process_user_batch` marks every
record of a batch Processing before processing any of them; with two
pending records for the same `(table_name, record_id)` in one batch,
both are Processing at once, violating the claimed invariant. -/
theorem processing_unique_c5_counterexample :
    countProcessingAt tableC5 "tasks" "r1" = 0 ∧
    countProcessingAt (updateSyncStatus tableC5 ["a", "b"] SyncStatus.processing 0)
      "tasks" "r1" = 2 ∧
    ¬(countProcessingAt (updateSyncStatus tableC5 ["a", "b"] SyncStatus.processing 0)
        "tasks" "r1" ≤ 1) := by
  decide

/-- C5 (amended): the scheduler marks a whole user batch Processing in
one sweep, so at most one record per `(target_table, target_id)` is
Processing only under the extra assumptions that the batch contains at
most one record per target and that no record outside the batch is
already Processing; the code itself does not prevent a batch from
holding several records for one target. -/
theorem processing_unique_c5 (table : List SyncRec) (ids : List String) (now : Int)
    (t rid : String)
    (hdistinct : table.Pairwise fun a b =>
      ids.contains a.id = true → ids.contains b.id = true →
        a.table_name ≠ b.table_name ∨ a.record_id ≠ b.record_id)
    (hothers : ∀ r ∈ table, ids.contains r.id = false → r.status ≠ SyncStatus.processing) :
    countProcessingAt (updateSyncStatus table ids SyncStatus.processing now) t rid ≤ 1 := by
  induction table with
  | nil => simp [updateSyncStatus, countProcessingAt]
  | cons r rest ih =>
    rw [List.pairwise_cons] at hdistinct
    obtain ⟨hd, hrest⟩ := hdistinct
    have hothersRest : ∀ x ∈ rest, ids.contains x.id = false →
        x.status ≠ SyncStatus.processing := fun x hx => hothers x (List.mem_cons_of_mem r hx)
    have hstep : updateSyncStatus (r :: rest) ids SyncStatus.processing now =
        (if ids.contains r.id then
          { r with status := SyncStatus.processing, processed_at := some now }
         else r) :: updateSyncStatus rest ids SyncStatus.processing now := by
      simp [updateSyncStatus]
    rw [hstep]
    unfold countProcessingAt
    rw [List.countP_cons]
    by_cases hin : ids.contains r.id
    · by_cases hmatch : r.table_name = t ∧ r.record_id = rid
      · have hzero : List.countP
            (fun x => x.status == SyncStatus.processing && x.table_name == t &&
              x.record_id == rid)
            (updateSyncStatus rest ids SyncStatus.processing now) = 0 := by
          rw [List.countP_eq_zero]
          intro a ha
          rw [updateSyncStatus] at ha
          obtain ⟨b, hb, hba⟩ := List.mem_map.mp ha
          intro hcontra
          rw [← hba] at hcontra
          by_cases hbin : ids.contains b.id
          · rw [if_pos hbin] at hcontra
            simp at hcontra
            rcases hd b hb hin hbin with hne | hne
            · exact hne (by rw [hmatch.1, hcontra.1])
            · exact hne (by rw [hmatch.2, hcontra.2])
          · rw [if_neg hbin] at hcontra
            simp at hcontra
            exact hothersRest b hb (by simpa using hbin) hcontra.1.1
        rw [hzero, if_pos hin]
        split <;> omega
      · have hfalse : ((if ids.contains r.id then
            { r with status := SyncStatus.processing, processed_at := some now }
           else r).status == SyncStatus.processing &&
            (if ids.contains r.id then
              { r with status := SyncStatus.processing, processed_at := some now }
             else r).table_name == t &&
            (if ids.contains r.id then
              { r with status := SyncStatus.processing, processed_at := some now }
             else r).record_id == rid) = false := by
          rw [if_pos hin]
          simp only [Bool.and_eq_false_iff]
          by_cases h1 : r.table_name = t
          · right
            have h2 : ¬r.record_id = rid := fun hr => hmatch ⟨h1, hr⟩
            simpa using h2
          · left
            right
            simpa using h1
        rw [hfalse]
        simp only [if_false, Bool.false_eq_true, if_neg (by simp : ¬False)]
        have := ih hrest hothersRest
        unfold countProcessingAt at this
        omega
    · have hstatus : r.status ≠ SyncStatus.processing :=
        hothers r (List.mem_cons_self r rest) (by simpa using hin)
      have hfalse : ((if ids.contains r.id then
          { r with status := SyncStatus.processing, processed_at := some now }
         else r).status == SyncStatus.processing &&
          (if ids.contains r.id then
            { r with status := SyncStatus.processing, processed_at := some now }
           else r).table_name == t &&
          (if ids.contains r.id then
            { r with status := SyncStatus.processing, processed_at := some now }
           else r).record_id == rid) = false := by
        rw [if_neg hin]
        simp [hstatus]
      rw [hfalse]
      simp only [if_false, Bool.false_eq_true, if_neg (by simp : ¬False)]
      have := ih hrest hothersRest
      unfold countProcessingAt at this
      omega

/-- C5 witness: the amended uniqueness statement evaluated on a concrete
one-record-per-target batch. -/
theorem processing_unique_c5_witness :
    countProcessingAt (updateSyncStatus [itemC1] ["s1"] SyncStatus.processing 0)
      "tasks" "r1" ≤ 1 :=
  processing_unique_c5 [itemC1] ["s1"] 0 "tasks" "r1" (by decide) (by decide)

theorem consolidate_le_trans (a b c : SyncRec)
    (hab : decide (a.created_at ≤ b.created_at) = true)
    (hbc : decide (b.created_at ≤ c.created_at) = true) :
    decide (a.created_at ≤ c.created_at) = true := by
  simp at hab hbc ⊢
  omega

theorem consolidate_le_total (a b : SyncRec) :
    (decide (a.created_at ≤ b.created_at) || decide (b.created_at ≤ a.created_at)) = true := by
  simp
  omega

/-- C4: consolidating N > 1 pending records on one target marks the N-1
records that are not the most recent by `created_at` as Completed with
the superseded note (hence no longer Pending and never executed), and
keeps exactly the most recently created record, still Pending. -/
theorem consolidation_c4 (items : List SyncRec) (now : Int)
    (hlen : 1 < items.length)
    (hdist : items.Pairwise fun a b => a.created_at ≠ b.created_at)
    (hpend : ∀ x ∈ items, x.status = SyncStatus.pending) :
    (consolidateSyncItems items now).1.length = items.length - 1 ∧
    (∀ y ∈ (consolidateSyncItems items now).1,
      y.status = SyncStatus.completed ∧
      y.error_message = some "superseded_by_newer_operation" ∧
      y.status ≠ SyncStatus.pending) ∧
    ∃ m, (consolidateSyncItems items now).2 = some m ∧ m ∈ items ∧
      m.status = SyncStatus.pending ∧
      ∀ x ∈ items, x ≠ m → x.created_at < m.created_at := by
  have hperm : (items.mergeSort fun a b => decide (a.created_at ≤ b.created_at)).Perm items :=
    List.mergeSort_perm items _
  have hsorted : (items.mergeSort fun a b => decide (a.created_at ≤ b.created_at)).Pairwise
      (fun a b => decide (a.created_at ≤ b.created_at) = true) :=
    List.sorted_mergeSort consolidate_le_trans consolidate_le_total items
  have hne : (items.mergeSort fun a b => decide (a.created_at ≤ b.created_at)) ≠ [] := by
    intro h
    have hl := hperm.length_eq
    rw [h] at hl
    simp at hl
    omega
  have hlast : (items.mergeSort fun a b => decide (a.created_at ≤ b.created_at)).getLast? =
      some ((items.mergeSort fun a b => decide (a.created_at ≤ b.created_at)).getLast hne) :=
    List.getLast?_eq_getLast _ hne
  have hmem : (items.mergeSort fun a b => decide (a.created_at ≤ b.created_at)).getLast hne ∈
      items := hperm.mem_iff.mp (List.getLast_mem hne)
  have hdecomp : (items.mergeSort fun a b => decide (a.created_at ≤ b.created_at)).dropLast ++
      [(items.mergeSort fun a b => decide (a.created_at ≤ b.created_at)).getLast hne] =
      items.mergeSort fun a b => decide (a.created_at ≤ b.created_at) :=
    List.dropLast_append_getLast hne
  refine ⟨?_, ?_, ?_⟩
  · show ((items.mergeSort fun a b => decide (a.created_at ≤ b.created_at)).dropLast.map
        (fun it => markSyncCompleted it (some "superseded_by_newer_operation") now)).length =
      items.length - 1
    rw [List.length_map, List.length_dropLast, hperm.length_eq]
  · intro y hy
    obtain ⟨x, hx, hxy⟩ := List.mem_map.mp hy
    rw [← hxy]
    exact ⟨rfl, rfl, by simp [markSyncCompleted]⟩
  · refine ⟨(items.mergeSort fun a b => decide (a.created_at ≤ b.created_at)).getLast hne,
      ?_, hmem, hpend _ hmem, ?_⟩
    · exact hlast
    · intro x hx hxm
      have hxs : x ∈ items.mergeSort fun a b => decide (a.created_at ≤ b.created_at) :=
        hperm.mem_iff.mpr hx
      rw [← hdecomp] at hxs
      rcases List.mem_append.mp hxs with hdrop | hsingle
      · have hle : decide (x.created_at ≤
            ((items.mergeSort fun a b => decide (a.created_at ≤ b.created_at)).getLast
              hne).created_at) = true := by
          have hpa := hsorted
          rw [← hdecomp] at hpa
          exact (List.pairwise_append.mp hpa).2.2 x hdrop _ (by simp)
        have hle' : x.created_at ≤
            ((items.mergeSort fun a b => decide (a.created_at ≤ b.created_at)).getLast
              hne).created_at := by simpa using hle
        have hnecr : x.created_at ≠
            ((items.mergeSort fun a b => decide (a.created_at ≤ b.created_at)).getLast
              hne).created_at := by
          have hsymm : Symmetric fun a b : SyncRec => a.created_at ≠ b.created_at :=
            fun a b hab h => hab h.symm
          exact List.Pairwise.forall hsymm hdist hx hmem hxm
        omega
      · exact absurd (by simpa using hsingle) hxm

/-- C4 witness: the consolidation contract evaluated on a concrete group
of three pending records with creation times 1, 3, 2. -/
theorem consolidation_c4_witness :
    (consolidateSyncItems itemsC4 9).1.length = itemsC4.length - 1 ∧
    (∀ y ∈ (consolidateSyncItems itemsC4 9).1,
      y.status = SyncStatus.completed ∧
      y.error_message = some "superseded_by_newer_operation" ∧
      y.status ≠ SyncStatus.pending) ∧
    ∃ m, (consolidateSyncItems itemsC4 9).2 = some m ∧ m ∈ itemsC4 ∧
      m.status = SyncStatus.pending ∧
      ∀ x ∈ itemsC4, x ≠ m → x.created_at < m.created_at :=
  consolidation_c4 itemsC4 9 (by decide) (by decide) (by decide)

/-- C10: when the status endpoint succeeds, its aggregate counts are
computed only over the returned page of at most `limit` records (which
excludes Completed records unless `include_completed`), `has_conflicts`
is true exactly when some record of that page is Failed, and no record
of the page is in the Conflict status (so Conflict records never count
toward `has_conflicts`). -/
theorem status_counts_c10 (table : List SyncRec) (userId : String) (ic : Bool) (limit : Nat)
    (resp : SyncStatusResponse)
    (h : getSyncStatus table userId ic limit = Except.ok resp) :
    resp.sync_items = getSyncStatusPage table userId ic limit ∧
    resp.sync_items.length ≤ limit ∧
    (ic = false → ∀ r ∈ resp.sync_items, r.status ≠ SyncStatus.completed) ∧
    resp.statistics.pending =
      (resp.sync_items.filter fun r => r.status == SyncStatus.pending).length ∧
    resp.statistics.processing =
      (resp.sync_items.filter fun r => r.status == SyncStatus.processing).length ∧
    resp.statistics.failed =
      (resp.sync_items.filter fun r => r.status == SyncStatus.failed).length ∧
    resp.statistics.completed =
      (resp.sync_items.filter fun r => r.status == SyncStatus.completed).length ∧
    resp.statistics.total = resp.sync_items.length ∧
    (resp.has_conflicts = true ↔ ∃ r ∈ resp.sync_items, r.status = SyncStatus.failed) ∧
    (∀ r ∈ resp.sync_items, r.status ≠ SyncStatus.conflict) := by
  by_cases hall : (getSyncStatusPage table userId ic limit).all syncQueueParses
  · simp only [getSyncStatus] at h
    rw [if_pos hall] at h
    have hr := Except.ok.inj h
    subst hr
    refine ⟨rfl, ?_, ?_, rfl, rfl, rfl, rfl, rfl, ?_, ?_⟩
    · show (getSyncStatusPage table userId ic limit).length ≤ limit
      simp only [getSyncStatusPage, List.length_take]
      exact min_le_left _ _
    · intro hic r hr
      have hr' : r ∈ getSyncStatusPage table userId ic limit := hr
      simp only [getSyncStatusPage, hic, Bool.false_eq_true, if_false] at hr'
      have hr2 := List.mem_of_mem_take hr'
      have hr3 := (List.mergeSort_perm _ _).mem_iff.mp hr2
      have hr4 := (List.mem_filter.mp hr3).2
      simpa using hr4
    · show decide (0 <
        ((getSyncStatusPage table userId ic limit).filter
          fun r => r.status == SyncStatus.failed).length) = true ↔ _
      rw [decide_eq_true_iff]
      constructor
      · intro hpos
        obtain ⟨x, hx⟩ := List.exists_mem_of_ne_nil _ (List.length_pos.mp hpos)
        obtain ⟨hxmem, hxst⟩ := List.mem_filter.mp hx
        exact ⟨x, hxmem, by simpa using hxst⟩
      · rintro ⟨r, hr, hst⟩
        apply List.length_pos.mpr
        exact List.ne_nil_of_mem (List.mem_filter.mpr ⟨hr, by simp [hst]⟩)
    · intro r hr
      have hparses := List.all_eq_true.mp hall r hr
      exact ((syncQueueParses_iff r).mp hparses).1
  · simp only [getSyncStatus] at h
    rw [if_neg hall] at h
    exact absurd h (by simp)

/-- C10 witness: the status-endpoint characterization evaluated on a
concrete table whose successful page holds one pending and one failed
record. -/
theorem status_counts_c10_witness :
    respC10.sync_items = getSyncStatusPage tableC10 "u1" false 10 ∧
    respC10.sync_items.length ≤ 10 ∧
    (false = false → ∀ r ∈ respC10.sync_items, r.status ≠ SyncStatus.completed) ∧
    respC10.statistics.pending =
      (respC10.sync_items.filter fun r => r.status == SyncStatus.pending).length ∧
    respC10.statistics.processing =
      (respC10.sync_items.filter fun r => r.status == SyncStatus.processing).length ∧
    respC10.statistics.failed =
      (respC10.sync_items.filter fun r => r.status == SyncStatus.failed).length ∧
    respC10.statistics.completed =
      (respC10.sync_items.filter fun r => r.status == SyncStatus.completed).length ∧
    respC10.statistics.total = respC10.sync_items.length ∧
    (respC10.has_conflicts = true ↔ ∃ r ∈ respC10.sync_items, r.status = SyncStatus.failed) ∧
    (∀ r ∈ respC10.sync_items, r.status ≠ SyncStatus.conflict) := by
  have hall : (getSyncStatusPage tableC10 "u1" false 10).all syncQueueParses = true := by
    rw [List.all_eq_true]
    intro r hr
    have hr1 : r ∈ getSyncStatusPage tableC10 "u1" false 10 := hr
    simp only [getSyncStatusPage, Bool.false_eq_true, if_false] at hr1
    have hr2 := List.mem_of_mem_take hr1
    have hr3 := (List.mergeSort_perm _ _).mem_iff.mp hr2
    have hr4 := (List.mem_filter.mp hr3).1
    have hr5 := (List.mem_filter.mp hr4).1
    have hr6 : r ∈ tableC10 := hr5
    simp only [tableC10, List.mem_cons, List.not_mem_nil, or_false] at hr6
    rcases hr6 with rfl | rfl | rfl | rfl <;> decide
  have h : getSyncStatus tableC10 "u1" false 10 = Except.ok respC10 := by
    simp only [getSyncStatus]
    rw [if_pos hall]
    simp only [respC10, pageC10]
  exact status_counts_c10 tableC10 "u1" false 10 respC10 h
